import Mathlib

/-
Verification of the rocksdb-store typed persistence layer.

The development shallowly embeds the three source files:
  * `wrapper.rs` — the `Db` enum over the three engine operating modes
    (read-only / optimistic-transaction / pessimistic-transaction) and the
    `Transaction` wrapper;
  * `mapper.rs` — the `TableMapper` serde bridge: the write path issues one
    `put` per struct field inside one transaction and commits at `end`; the
    read path issues one `get` per field name and decodes the one-byte
    sentinel `[0]` (`BINCODE_NONE_BYTES`) when a field's key is absent;
  * `lib.rs` — the `Database` record store over the two reserved partitions
    `_config` and `_books`, with open/create/read/write entry points.

A partition (column family) is modelled as an association list of
(key, value-bytes) pairs where a `put` prepends and a `get` takes the first
match, so the most recent write wins — the point-get/point-put fragment of the
RocksDB contract used by this code.  The bincode codec is an external crate;
it is abstracted as an encode function `V → Option Bytes` and a decode
function `Bytes → Option V` (`none` = the codec error).  The engine's
documented transaction contract (operations become visible only at a
successful `commit`; a dropped transaction is an implicit abort) is embedded
by state passing: the store value only changes when the write path reaches
`tx.commit()`.
-/

namespace RocksdbStore

/-- A byte, as stored by the engine. -/
abbrev Byte := Nat

/-- An encoded value: a byte string. -/
abbrev Bytes := List Byte

/-- One partition (column family): key/value pairs, most recent first. -/
abbrev Store := List (String × Bytes)

/-- Point lookup in a partition: first (most recently put) match wins. -/
def storeGet (s : Store) (k : String) : Option Bytes :=
  match s with
  | [] => none
  | (k2, v) :: rest => if k2 = k then some v else storeGet rest k

/-- Point write to a partition: the new pair shadows any older one. -/
def storePut (s : Store) (k : String) (v : Bytes) : Store :=
  (k, v) :: s

/-- `Transaction::commit` (wrapper.rs): apply the queued puts, in issue
order, to the partition.  Before the commit none of them is visible. -/
def commitTx (s : Store) (ops : List (String × Bytes)) : Store :=
  ops.foldl (fun acc op => storePut acc op.1 op.2) s

/-- mapper.rs `BINCODE_NONE_BYTES`: the reserved one-byte sentinel decoded
in place of a stored value when a field's key is absent. -/
def BINCODE_NONE_BYTES : Bytes := [0]

/-- The error enum of mapper.rs (payloads dropped). -/
inductive MapperError where
  | unsupported
  | invalidTransaction
  | encoding
  | decoding
  | serde
  | db
deriving DecidableEq, Repr

/-- The top-level shape of a serde value, one constructor per entry point of
the `Serializer` trait implemented by `TableMapper` in mapper.rs.  `V` is the
type of field values of a struct-shaped record; those values are passed whole
to the bincode codec by `serialize_field`, so the mapper never inspects
them. -/
inductive SerdeValue (V : Type) where
  | vBool (b : Bool)
  | vI8 (n : Int)
  | vI16 (n : Int)
  | vI32 (n : Int)
  | vI64 (n : Int)
  | vI128 (n : Int)
  | vU8 (n : Nat)
  | vU16 (n : Nat)
  | vU32 (n : Nat)
  | vU64 (n : Nat)
  | vU128 (n : Nat)
  | vF32
  | vF64
  | vChar (c : Char)
  | vStr (s : String)
  | vBytes (bs : Bytes)
  | vNone
  | vSome
  | vUnit
  | vUnitStruct (name : String)
  | vUnitVariant (name : String) (variantIndex : Nat) (variant : String)
  | vNewtypeStruct (name : String)
  | vNewtypeVariant (name : String) (variantIndex : Nat) (variant : String)
  | vSeq (len : Option Nat)
  | vTuple (len : Nat)
  | vTupleStruct (name : String) (len : Nat)
  | vTupleVariant (name : String) (variantIndex : Nat) (variant : String) (len : Nat)
  | vMap (len : Option Nat)
  | vStruct (name : String) (fields : List (String × V))
  | vStructVariant (name : String) (variantIndex : Nat) (variant : String) (len : Nat)

/-- `serialize_struct` is the only entry point that proceeds to field
serialization (mapper.rs line 128). -/
def isStructShape {V : Type} : SerdeValue V → Bool
  | .vStruct _ _ => true
  | _ => false

/-- `serialize_unit` and `serialize_unit_struct` are the only other entry
points that succeed (mapper.rs lines 136 and 273). -/
def isUnitShape {V : Type} : SerdeValue V → Bool
  | .vUnit => true
  | .vUnitStruct _ => true
  | _ => false

/-- The sequence of `serialize_field` calls made by the serde derive for a
struct: encode each field value in order and queue a `put` of the encoded
bytes under the field's name on the open transaction.  Returns the queued
puts in issue order, paired with `true` on success; the first encode failure
stops the loop (the error propagates through `?`, `end` is never reached),
leaving only the puts already issued. -/
def serializeFieldsAcc {V : Type} (enc : V → Option Bytes) :
    List (String × V) → List (String × Bytes) × Bool
  | [] => ([], true)
  | (k, v) :: rest =>
    match enc v with
    | some bs =>
      let r := serializeFieldsAcc enc rest
      ((k, bs) :: r.1, r.2)
    | none => ([], false)

/-- The observable outcome of one `value.serialize(TableMapper::new(..))`
call on a writable mapper. -/
structure WriteOutcome where
  /-- The `Result` returned to the caller. -/
  result : Except MapperError Unit
  /-- The partition contents after the call. -/
  store : Store
  /-- Whether `tx.commit()` was reached (mapper.rs `end`). -/
  committed : Bool
  /-- The puts queued on the transaction, in issue order. -/
  puts : List (String × Bytes)

/-- The write path of `TableMapper` (the `Serializer` impl of mapper.rs for
`W = true`): a struct-shaped value walks `serialize_struct` /
`serialize_field*` / `end` and commits its transaction; `serialize_unit` and
`serialize_unit_struct` return `Ok(())` at once, never touching the
transaction, which is then dropped uncommitted (implicit abort, no effect);
every other entry point returns `Err(Error::Unsupported)` before issuing any
operation. -/
def serializeValue {V : Type} (enc : V → Option Bytes) (v : SerdeValue V)
    (s : Store) : WriteOutcome :=
  match v with
  | .vStruct _ fields =>
    let r := serializeFieldsAcc enc fields
    if r.2 then ⟨.ok (), commitTx s r.1, true, r.1⟩
    else ⟨.error .encoding, s, false, r.1⟩
  | .vUnit => ⟨.ok (), s, false, []⟩
  | .vUnitStruct _ => ⟨.ok (), s, false, []⟩
  | _ => ⟨.error .unsupported, s, false, []⟩

/-- `TableMapperAccess::next_value_seed` (mapper.rs lines 648-680): a direct
`get` of the field's name; a found value is decoded with the codec (decode
failure aborts with `Error::Decoding`); an absent key decodes
`BINCODE_NONE_BYTES` instead. -/
def readField {V : Type} (dec : Bytes → Option V) (s : Store) (n : String) :
    Except MapperError V :=
  match storeGet s n with
  | some bs =>
    match dec bs with
    | some v => .ok v
    | none => .error .decoding
  | none =>
    match dec BINCODE_NONE_BYTES with
    | some v => .ok v
    | none => .error .decoding

/-- The read path of `TableMapper` (`deserialize_struct` driving the
`MapAccess` loop): one `readField` per schema field name, in schema order;
the first error aborts the whole read, otherwise the record is the list of
(name, decoded value) pairs. -/
def readFields {V : Type} (dec : Bytes → Option V) (s : Store) :
    List String → Except MapperError (List (String × V))
  | [] => .ok []
  | n :: rest =>
    match readField dec s n with
    | .ok v =>
      match readFields dec s rest with
      | .ok tail => .ok ((n, v) :: tail)
      | .error e => .error e
    | .error e => .error e

/-- The three variants of `DbInner` (wrapper.rs lines 8-12): the engine
operating mode, fixed when the backend is opened. -/
inductive Mode where
  | readOnly
  | optimistic
  | pessimistic
deriving DecidableEq, Repr

/-- The two variants of the `Transaction` wrapper (wrapper.rs lines 138-141). -/
inductive TxKind where
  | optimistic
  | pessimistic
deriving DecidableEq, Repr

/-- `Db::transaction` (wrapper.rs lines 45-51): a read-only backend yields
`None`; each transactional backend yields a transaction of its kind. -/
def dbTransaction : Mode → Option TxKind
  | .readOnly => none
  | .optimistic => some .optimistic
  | .pessimistic => some .pessimistic

/-- `Db::read_only` (wrapper.rs lines 38-43): whether the accessor returns
`Some` — true exactly on the read-only variant. -/
def dbReadOnlyAccess : Mode → Bool
  | .readOnly => true
  | _ => false

/-- The mode chosen by `Database::open_internal` (lib.rs lines 143-151):
`W = false` opens the engine read-only; otherwise the
`optimistic_transactions` flag selects `OptimisticTransactionDB` or
`TransactionDB`. -/
def openInternalMode (W : Bool) (optimisticTransactions : Bool) : Mode :=
  if W = false then .readOnly
  else if optimisticTransactions then .optimistic
  else .pessimistic

/-- `Database::open` (lib.rs line 120) calls `open_internal` with the flag
set to `true`. -/
def openMode (W : Bool) : Mode :=
  openInternalMode W true

/-- `Database::open_with_pessimistic_transactions` (lib.rs line 108) calls
`open_internal` with the flag set to `true` — the literal argument in the
source. -/
def openWithPessimisticTransactionsMode : Mode :=
  openInternalMode true true

/-- The mode chosen by `Database::create` (lib.rs lines 71-77): optimistic
or pessimistic per the `optimistic_transactions` flag, never read-only. -/
def createMode (optimisticTransactions : Bool) : Mode :=
  if optimisticTransactions then .optimistic else .pessimistic

/-- The `tx` field built by `TableMapper::new` (mapper.rs lines 72-86), just
before the `unwrap`: `Some(db.transaction())` when `W`, `None` otherwise. -/
def mapperTx (W : Bool) (m : Mode) : Option TxKind :=
  if W then dbTransaction m else none

/-- The invariant relating the compile-time capability flag `W` of a
`Database<W, C, B>` handle to the variant of its inner `Db`. -/
def modeMatches (W : Bool) (m : Mode) : Prop :=
  if W then m ≠ .readOnly else m = .readOnly

/-- The engine state visible to the record store: the two reserved
partitions `_config` and `_books` (lib.rs lines 16-17).  Caller-declared
partitions are never touched by the record operations. -/
structure Engine where
  configStore : Store
  booksStore : Store

/-- `Database::write_config_with_db` (lib.rs line 93): serialize the value
through a fresh `TableMapper` over the `_config` partition — its own
transaction, independent of any other write. -/
def writeConfigWithDb {V : Type} (enc : V → Option Bytes) (e : Engine)
    (v : SerdeValue V) : Except MapperError Unit × Engine :=
  let out := serializeValue enc v e.configStore
  (out.result, { e with configStore := out.store })

/-- `Database::write_books_with_db` (lib.rs line 97): the same over the
`_books` partition. -/
def writeBooksWithDb {V : Type} (enc : V → Option Bytes) (e : Engine)
    (v : SerdeValue V) : Except MapperError Unit × Engine :=
  let out := serializeValue enc v e.booksStore
  (out.result, { e with booksStore := out.store })

/-- The two record writes performed by `Database::create` (lib.rs lines
79-80): `write_config_with_db(..)?` then `write_books_with_db(..)?` — two
independent transactions, the second skipped if the first fails. -/
def createWrites {V : Type} (enc : V → Option Bytes) (e : Engine)
    (config books : SerdeValue V) : Except MapperError Unit × Engine :=
  let r1 := writeConfigWithDb enc e config
  match r1.1 with
  | Except.ok _ => writeBooksWithDb enc r1.2 books
  | Except.error err => (Except.error err, r1.2)

/-- A `Database<W, C, B>` handle (lib.rs lines 27-31): the shared engine
state plus the in-memory cached copies of the two records, populated at
open/create time. -/
structure DatabaseHandle (V : Type) where
  db : Engine
  config : List (String × V)
  books : List (String × V)

/-- `Database::write_config` (lib.rs lines 85-87): delegates to
`write_config_with_db` on the shared engine; the handle's cached fields are
untouched (`&self`). -/
def handleWriteConfig {V : Type} (enc : V → Option Bytes)
    (h : DatabaseHandle V) (v : SerdeValue V) :
    Except MapperError Unit × DatabaseHandle V :=
  let r := writeConfigWithDb enc h.db v
  (r.1, { h with db := r.2 })

/-- `Database::write_books` (lib.rs lines 89-91). -/
def handleWriteBooks {V : Type} (enc : V → Option Bytes)
    (h : DatabaseHandle V) (v : SerdeValue V) :
    Except MapperError Unit × DatabaseHandle V :=
  let r := writeBooksWithDb enc h.db v
  (r.1, { h with db := r.2 })

/-- A concrete codec for witnesses: the mapper instantiated at boolean field
values, `true ↦ [1]`, `false ↦ [0]` (the bincode encoding of `bool`, whose
decoding also accepts the sentinel byte). -/
def encB : Bool → Option Bytes :=
  fun b => some [if b then 1 else 0]

/-- The matching decode function: `[0] ↦ false`, `[1] ↦ true`, anything else
is a decode error. -/
def decB : Bytes → Option Bool :=
  fun bs =>
    match bs with
    | [0] => some false
    | [1] => some true
    | _ => none

/-! ### Helper lemmas about the store and the write path -/

theorem commitTx_cons (s : Store) (p : String × Bytes) (ops : List (String × Bytes)) :
    commitTx s (p :: ops) = commitTx ((p.1, p.2) :: s) ops := rfl

theorem commitTx_eq_reverse_append (ops : List (String × Bytes)) :
    ∀ s : Store, commitTx s ops = ops.reverse ++ s := by
  induction ops with
  | nil => intro s; rfl
  | cons p rest ih =>
    intro s
    rw [commitTx_cons, ih]
    simp

theorem storeGet_append_of_some {a : Store} {k : String} {b : Bytes} (s : Store)
    (h : storeGet a k = some b) : storeGet (a ++ s) k = some b := by
  induction a with
  | nil => simp [storeGet] at h
  | cons p rest ih =>
    obtain ⟨k2, v⟩ := p
    simp only [storeGet, List.cons_append] at h ⊢
    by_cases hk : k2 = k
    · simpa [hk] using h
    · simp only [hk, if_false] at h ⊢
      exact ih h

theorem storeGet_of_mem_nodup (l : Store) (k : String) (b : Bytes)
    (hmem : (k, b) ∈ l) (hnd : (l.map Prod.fst).Nodup) : storeGet l k = some b := by
  induction l with
  | nil => simp at hmem
  | cons p rest ih =>
    obtain ⟨k2, v⟩ := p
    simp only [List.map_cons, List.nodup_cons] at hnd
    rcases List.mem_cons.mp hmem with h1 | h2
    · obtain ⟨hk, hv⟩ := Prod.mk.injEq k b k2 v ▸ h1
      subst hk hv
      simp [storeGet]
    · have hkne : k2 ≠ k := by
        intro hkeq
        subst hkeq
        exact hnd.1 (List.mem_map_of_mem Prod.fst h2)
      simp only [storeGet, hkne, if_false]
      exact ih h2 hnd.2

theorem serializeFieldsAcc_ok_iff {V : Type} (enc : V → Option Bytes)
    (fields : List (String × V)) :
    (serializeFieldsAcc enc fields).2 = true ↔ ∀ p ∈ fields, (enc p.2).isSome := by
  induction fields with
  | nil => simp [serializeFieldsAcc]
  | cons p rest ih =>
    obtain ⟨k, v⟩ := p
    cases henc : enc v with
    | none => simp [serializeFieldsAcc, henc]
    | some bs => simp [serializeFieldsAcc, henc, ih]

theorem serializeFieldsAcc_keys {V : Type} (enc : V → Option Bytes)
    (fields : List (String × V)) (hok : (serializeFieldsAcc enc fields).2 = true) :
    (serializeFieldsAcc enc fields).1.map Prod.fst = fields.map Prod.fst := by
  induction fields with
  | nil => rfl
  | cons p rest ih =>
    obtain ⟨k, v⟩ := p
    cases henc : enc v with
    | none => simp [serializeFieldsAcc, henc] at hok
    | some bs =>
      simp only [serializeFieldsAcc, henc] at hok ⊢
      simp [ih hok]

theorem serializeFieldsAcc_mem {V : Type} (enc : V → Option Bytes)
    (fields : List (String × V)) (hok : (serializeFieldsAcc enc fields).2 = true)
    (k : String) (v : V) (hmem : (k, v) ∈ fields) :
    ∃ bs, enc v = some bs ∧ (k, bs) ∈ (serializeFieldsAcc enc fields).1 := by
  induction fields with
  | nil => simp at hmem
  | cons p rest ih =>
    obtain ⟨k2, v2⟩ := p
    cases henc : enc v2 with
    | none => simp [serializeFieldsAcc, henc] at hok
    | some bs2 =>
      simp only [serializeFieldsAcc, henc] at hok ⊢
      rcases List.mem_cons.mp hmem with h1 | h2
      · obtain ⟨hk, hv⟩ := Prod.mk.injEq k v k2 v2 ▸ h1
        subst hk hv
        exact ⟨bs2, henc, List.mem_cons_self _ _⟩
      · obtain ⟨bs, hbs, hm⟩ := ih hok h2
        exact ⟨bs, hbs, List.mem_cons_of_mem _ hm⟩

theorem readFields_of_pointwise {V : Type} (dec : Bytes → Option V) (S : Store)
    (fields : List (String × V))
    (h : ∀ k v, (k, v) ∈ fields → readField dec S k = Except.ok v) :
    readFields dec S (fields.map Prod.fst) = Except.ok fields := by
  induction fields with
  | nil => rfl
  | cons p rest ih =>
    obtain ⟨k, v⟩ := p
    have hk := h k v (List.mem_cons_self _ _)
    have hrest := ih fun k2 v2 hm => h k2 v2 (List.mem_cons_of_mem _ hm)
    simp [readFields, hk, hrest]

/-! ### Claim theorems -/

/-- Claim C1: writing a struct-shaped record through the FieldMapper write
path (one put per field inside one transaction, then commit) and reading it
back through the FieldMapper read path (one get per field name in schema
order, decoding each stored value) yields a value equal to the record, for
any codec that round-trips and any struct with distinct field names. -/
theorem round_trip {V : Type} (enc : V → Option Bytes) (dec : Bytes → Option V)
    (hcodec : ∀ v, (enc v).bind dec = some v)
    (name : String) (fields : List (String × V)) (s : Store)
    (hkeys : (fields.map Prod.fst).Nodup) :
    (serializeValue enc (SerdeValue.vStruct name fields) s).result = Except.ok () ∧
    readFields dec (serializeValue enc (SerdeValue.vStruct name fields) s).store
      (fields.map Prod.fst) = Except.ok fields := by
  have hall : ∀ p ∈ fields, (enc p.2).isSome := by
    intro p hp
    have hv := hcodec p.2
    cases h : enc p.2 with
    | none => rw [h] at hv; simp at hv
    | some bs => simp [h]
  have hok : (serializeFieldsAcc enc fields).2 = true :=
    (serializeFieldsAcc_ok_iff enc fields).mpr hall
  have hval : serializeValue enc (SerdeValue.vStruct name fields) s =
      ⟨Except.ok (), commitTx s (serializeFieldsAcc enc fields).1, true,
        (serializeFieldsAcc enc fields).1⟩ := by
    simp [serializeValue, hok]
  refine ⟨by rw [hval], ?_⟩
  rw [hval]
  apply readFields_of_pointwise
  intro k v hm
  obtain ⟨bs, hbs, hmem⟩ := serializeFieldsAcc_mem enc fields hok k v hm
  have hkeysops : (serializeFieldsAcc enc fields).1.map Prod.fst = fields.map Prod.fst :=
    serializeFieldsAcc_keys enc fields hok
  have hnd : ((serializeFieldsAcc enc fields).1.map Prod.fst).Nodup := hkeysops ▸ hkeys
  have hndrev : ((serializeFieldsAcc enc fields).1.reverse.map Prod.fst).Nodup := by
    rw [List.map_reverse]
    exact List.nodup_reverse.mpr hnd
  have hget1 : storeGet (serializeFieldsAcc enc fields).1.reverse k = some bs :=
    storeGet_of_mem_nodup _ k bs (List.mem_reverse.mpr hmem) hndrev
  have hget : storeGet (commitTx s (serializeFieldsAcc enc fields).1) k = some bs := by
    rw [commitTx_eq_reverse_append]
    exact storeGet_append_of_some s hget1
  have hdec : dec bs = some v := by
    have hv := hcodec v
    rw [hbs] at hv
    simpa using hv
  simp [readField, hget, hdec]

/-- Claim C1 witness: a concrete two-field boolean record round-trips
through a fresh partition. -/
theorem round_trip_witness :
    (serializeValue encB (SerdeValue.vStruct "t" [("foo", true), ("bar", false)]) []).result =
      Except.ok () ∧
    readFields decB
      (serializeValue encB (SerdeValue.vStruct "t" [("foo", true), ("bar", false)]) []).store
      ["foo", "bar"] = Except.ok [("foo", true), ("bar", false)] := by
  exact round_trip encB decB (by decide) "t" [("foo", true), ("bar", false)] [] (by decide)

/-- Claim C2: the claim says `open_with_pessimistic_transactions` forces the
pessimistic (lock-based) transactional mode on a writable handle; the source
(lib.rs line 108) passes `true` for the `optimistic_transactions` flag of
`open_internal`, so the backend is opened as an `OptimisticTransactionDB`,
never as the pessimistic `TransactionDB` the function's own name promises. -/
theorem openWithPessimisticTransactions_opens_optimistic :
    openWithPessimisticTransactionsMode = Mode.optimistic ∧
    openWithPessimisticTransactionsMode ≠ Mode.pessimistic ∧
    openWithPessimisticTransactionsMode = openMode true := by
  exact ⟨rfl, by decide, rfl⟩

/-- Claim C3: a field whose key is absent decodes the reserved one-byte
sentinel `[0]` instead of failing, and reading any field list from a fresh
(empty) partition yields the all-absent decode of every field without
error, whenever the sentinel decodes. -/
theorem absent_field_sentinel {V : Type} (dec : Bytes → Option V) (d0 : V)
    (hd : dec BINCODE_NONE_BYTES = some d0) :
    (∀ (s : Store) (n : String), storeGet s n = none → readField dec s n = Except.ok d0) ∧
    (∀ names : List String,
      readFields dec ([] : Store) names = Except.ok (names.map fun n => (n, d0))) := by
  constructor
  · intro s n h
    simp [readField, h, hd]
  · intro names
    induction names with
    | nil => rfl
    | cons n rest ih => simp [readFields, readField, storeGet, hd, ih]

/-- Claim C3 witness: with the boolean codec (whose sentinel decode is
`false`), a never-written two-field record reads back as all-absent. -/
theorem absent_field_sentinel_witness :
    readFields decB ([] : Store) ["foo", "bar"] =
      Except.ok [("foo", false), ("bar", false)] := by
  have h := (absent_field_sentinel decB false rfl).2 ["foo", "bar"]
  simpa using h

/-- Claim C4: every top-level value whose shape is neither struct-like nor
unit is rejected by the write path with `Error::Unsupported`, with no put
issued, no commit, and the partition unchanged. -/
theorem unsupported_shape_rejected {V : Type} (enc : V → Option Bytes)
    (v : SerdeValue V) (s : Store)
    (h1 : isStructShape v = false) (h2 : isUnitShape v = false) :
    serializeValue enc v s =
      ⟨Except.error MapperError.unsupported, s, false, []⟩ := by
  cases v <;> simp_all [isStructShape, isUnitShape, serializeValue]

/-- Claim C4 witness: a top-level boolean is rejected and the partition is
left as it was. -/
theorem unsupported_shape_rejected_witness :
    serializeValue encB (SerdeValue.vBool true) [("x", [7])] =
      ⟨Except.error MapperError.unsupported, [("x", [7])], false, []⟩ :=
  unsupported_shape_rejected encB (SerdeValue.vBool true) [("x", [7])] rfl rfl

/-- Claim C5: a record write is atomic — the write path commits exactly when
every field encodes; on commit the store becomes the queued puts applied as
one unit, on failure (or on any path that never reaches `commit`, an
implicit abort) the store is unchanged. -/
theorem record_write_atomic {V : Type} (enc : V → Option Bytes)
    (name : String) (fields : List (String × V)) (s : Store) :
    ((serializeValue enc (SerdeValue.vStruct name fields) s).committed = true ↔
      ∀ p ∈ fields, (enc p.2).isSome) ∧
    ((serializeValue enc (SerdeValue.vStruct name fields) s).committed = true →
      (serializeValue enc (SerdeValue.vStruct name fields) s).store =
        commitTx s (serializeValue enc (SerdeValue.vStruct name fields) s).puts ∧
      (serializeValue enc (SerdeValue.vStruct name fields) s).result = Except.ok ()) ∧
    ((serializeValue enc (SerdeValue.vStruct name fields) s).committed = false →
      (serializeValue enc (SerdeValue.vStruct name fields) s).store = s ∧
      (serializeValue enc (SerdeValue.vStruct name fields) s).result =
        Except.error MapperError.encoding) ∧
    (∀ (v : SerdeValue V) (s2 : Store),
      (serializeValue enc v s2).committed = false →
      (serializeValue enc v s2).store = s2) := by
  refine ⟨?_, ?_, ?_, ?_⟩
  · rw [← serializeFieldsAcc_ok_iff enc fields]
    cases hb : (serializeFieldsAcc enc fields).2 <;> simp [serializeValue, hb]
  · intro h
    cases hb : (serializeFieldsAcc enc fields).2
    · simp [serializeValue, hb] at h
    · constructor <;> simp [serializeValue, hb]
  · intro h
    cases hb : (serializeFieldsAcc enc fields).2
    · constructor <;> simp [serializeValue, hb]
    · simp [serializeValue, hb] at h
  · intro v s2 h
    cases v <;> simp_all [serializeValue]
    case vStruct name2 fields2 =>
      cases hb : (serializeFieldsAcc enc fields2).2
      · simp [serializeValue, hb] at h ⊢
      · simp [serializeValue, hb] at h

/-- Claim C5 witness: a concrete one-field record commits, and the store it
produces is exactly its queued puts applied at commit. -/
theorem record_write_atomic_witness :
    (serializeValue encB (SerdeValue.vStruct "t" [("a", true)]) []).store =
      commitTx [] (serializeValue encB (SerdeValue.vStruct "t" [("a", true)]) []).puts ∧
    (serializeValue encB (SerdeValue.vStruct "t" [("a", true)]) []).result =
      Except.ok () :=
  (record_write_atomic encB "t" [("a", true)] []).2.1 rfl

/-- Claim C6: the configuration and books records live in distinct reserved
partitions and each write is its own independent transaction — writing one
record never changes the other's partition, and `create`'s two writes are
two independent atomic writes (each equal in effect to the standalone write
on its own partition), not one joint transaction. -/
theorem config_books_independent {V : Type} (enc : V → Option Bytes) :
    (∀ (e : Engine) (v : SerdeValue V),
      (writeConfigWithDb enc e v).2.booksStore = e.booksStore) ∧
    (∀ (e : Engine) (v : SerdeValue V),
      (writeBooksWithDb enc e v).2.configStore = e.configStore) ∧
    (∀ (e : Engine) (cfg bks : SerdeValue V),
      (createWrites enc e cfg bks).2.configStore =
        (writeConfigWithDb enc e cfg).2.configStore) ∧
    (∀ (e : Engine) (cfg bks : SerdeValue V),
      (writeConfigWithDb enc e cfg).1 = Except.ok () →
      (createWrites enc e cfg bks).2.booksStore =
        (writeBooksWithDb enc e bks).2.booksStore) := by
  refine ⟨fun e v => rfl, fun e v => rfl, ?_, ?_⟩
  · intro e cfg bks
    cases hres : (writeConfigWithDb enc e cfg).1 with
    | ok u => simp [createWrites, hres, writeBooksWithDb]
    | error err => simp [createWrites, hres]
  · intro e cfg bks h
    have h2 : (serializeValue enc cfg e.configStore).result = Except.ok () := h
    simp [createWrites, writeBooksWithDb, writeConfigWithDb, h2]

/-- Claim C6 witness: on a fresh engine, `create`'s books write has exactly
the effect of the standalone books write, independent of the configuration
write that precedes it. -/
theorem config_books_independent_witness :
    (createWrites encB ⟨[], []⟩ (SerdeValue.vStruct "c" [("a", true)])
        (SerdeValue.vStruct "b" [("z", false)])).2.booksStore =
      (writeBooksWithDb encB ⟨[], []⟩
        (SerdeValue.vStruct "b" [("z", false)])).2.booksStore :=
  (config_books_independent encB).2.2.2 ⟨[], []⟩
    (SerdeValue.vStruct "c" [("a", true)]) (SerdeValue.vStruct "b" [("z", false)]) rfl

/-- Claim C7: `write_config` and `write_books` leave the handle's in-memory
cached config and books copies unchanged — the caches are snapshots from
open/create time and a caller must re-read to observe the new persisted
value. -/
theorem write_leaves_cache_unchanged {V : Type} (enc : V → Option Bytes)
    (h : DatabaseHandle V) (v : SerdeValue V) :
    (handleWriteConfig enc h v).2.config = h.config ∧
    (handleWriteConfig enc h v).2.books = h.books ∧
    (handleWriteBooks enc h v).2.config = h.config ∧
    (handleWriteBooks enc h v).2.books = h.books :=
  ⟨rfl, rfl, rfl, rfl⟩

/-- Claim C8: a read-only backend can never produce a transaction handle —
`Db::transaction` returns `None` exactly on the read-only variant, the
capability is fixed at `open_internal` time (`W = false` is the only way to
get the read-only variant), and a mapper instantiated at the read-only
capability holds no transaction.  (Write entry points exist only on
`Database<true, _, _>` in the source, so a read-only handle rejects them at
the type level.) -/
theorem read_only_no_transaction :
    dbTransaction Mode.readOnly = none ∧
    (∀ m : Mode, dbTransaction m = none ↔ m = Mode.readOnly) ∧
    (∀ (W opt : Bool), openInternalMode W opt = Mode.readOnly ↔ W = false) ∧
    (∀ m : Mode, mapperTx false m = none) := by
  refine ⟨rfl, ?_, ?_, fun m => rfl⟩
  · intro m
    cases m <;> simp [dbTransaction]
  · intro W opt
    cases W <;> cases opt <;> simp [openInternalMode]

/-- Claim C8 witness: opening with `W = false` yields the read-only variant,
and that variant yields no transaction. -/
theorem read_only_no_transaction_witness :
    openInternalMode false true = Mode.readOnly ∧
    dbTransaction (openInternalMode false true) = none :=
  ⟨(read_only_no_transaction.2.2.1 false true).mpr rfl, rfl⟩

/-- Claim C9: every handle built by the library's constructors satisfies the
invariant that the inner `Db` variant matches the capability flag `W`
(`W = false` gives the read-only variant, `W = true` one of the two
transactional variants); under that invariant `Db::read_only` is `Some` for
`W = false` (the unwrap in `Database::<false>::underlying` cannot panic)
and `db.transaction()` is `Some` for `W = true` (the unwrap in
`TableMapper::new` cannot panic). -/
theorem capability_invariant :
    (∀ (W opt : Bool), modeMatches W (openInternalMode W opt)) ∧
    (∀ opt : Bool, modeMatches true (createMode opt)) ∧
    (∀ m : Mode, modeMatches false m → dbReadOnlyAccess m = true) ∧
    (∀ m : Mode, modeMatches true m → (mapperTx true m).isSome = true) := by
  refine ⟨?_, ?_, ?_, ?_⟩
  · intro W opt
    cases W <;> cases opt <;> simp [modeMatches, openInternalMode]
  · intro opt
    cases opt <;> simp [modeMatches, createMode]
  · intro m hm
    cases m <;> simp_all [modeMatches, dbReadOnlyAccess]
  · intro m hm
    cases m <;> simp_all [modeMatches, mapperTx, dbTransaction]

/-- Claim C9 witness: a writable handle over the optimistic variant
satisfies the invariant and its mapper's transaction is present. -/
theorem capability_invariant_witness :
    (mapperTx true Mode.optimistic).isSome = true :=
  capability_invariant.2.2.2 Mode.optimistic (by simp [modeMatches])

/-- Claim C10: writing a unit-shaped record performs no put and commits no
transaction — `serialize_unit` and `serialize_unit_struct` return `Ok(())`
at once, the mapper's transaction is dropped uncommitted, and the partition
is left entirely unchanged. -/
theorem unit_write_no_effect {V : Type} (enc : V → Option Bytes) (s : Store)
    (name : String) :
    serializeValue enc (SerdeValue.vUnit : SerdeValue V) s =
      ⟨Except.ok (), s, false, []⟩ ∧
    serializeValue enc (SerdeValue.vUnitStruct name : SerdeValue V) s =
      ⟨Except.ok (), s, false, []⟩ :=
  ⟨rfl, rfl⟩

end RocksdbStore
